import Mathlib

/-!
Shallow embedding of `src/expr.rs`: the intrinsically scoped expression layer
of a typed lambda calculus with de Bruijn indices, usage-tagged variables and
existential types.  `from_content` is the validating smart constructor
(`ExprContent` view → `Expr` handle) and `to_content` the one-level destructor.
Rust `usize` counts are modelled as `Nat` (the code only adds, subtracts with a
checked lower bound, and compares, so no wrap-around arithmetic occurs);
`Rc<Vec<_>>` as `List _`; the `assert!` failure paths of `from_content` as an
`Except` error result, tagged with the scope-error taxonomy the specification
assigns to each assertion site.
-/

set_option autoImplicit false

namespace Nickel

/-- Usage discipline tag on a variable occurrence (`VarUsage` in `expr.rs`). -/
inductive VarUsage where
  | move
  | copy
deriving DecidableEq, Repr

/-- Modelled from the spec: `Type<Name>` lives in `types.rs`, which is not part
of the sources; the spec says this module consumes it only through its
`.free()` query (count of free type variables), cloning and structural
equality.  We model it as a free-type-variable count plus an otherwise opaque
payload that participates in structural equality. -/
structure Ty (Name : Type) where
  free : Nat
  payload : List Name
deriving DecidableEq, Repr

/-- Modelled from the spec: `TypeParam<Name>` from the missing `types.rs`, a
type-parameter declaration ("name plus constraints, opaque to this module"). -/
structure TypeParam (Name : Type) where
  name : Name
  payload : Nat
deriving DecidableEq, Repr

/-- Raw node tree: `ExprDataInner<Name>` of `expr.rs`.  The Rust indirection
`ExprData` (an `Rc` around `ExprDataInner`) is flattened away, since sharing is
observationally irrelevant to the pure values. -/
inductive ExprData (Name : Type) where
  | unit
  | var (usage : VarUsage) (index : Nat)
  | abs (type_params : List (TypeParam Name)) (arg_name : Name)
      (arg_type : Ty Name) (body : ExprData Name)
  | app (callee : ExprData Name) (type_params : List (Ty Name))
      (arg : ExprData Name)
  | pair (left : ExprData Name) (right : ExprData Name)
  | letE (names : List Name) (val : ExprData Name) (body : ExprData Name)
  | letExists (type_names : List Name) (val_name : Name)
      (val : ExprData Name) (body : ExprData Name)
  | makeExists (params : List (Name × Ty Name)) (type_body : Ty Name)
      (body : ExprData Name)
deriving DecidableEq, Repr

/-- Compact handle: `Expr<Name>` of `expr.rs`, pairing the cached free
term-variable and free type-variable counts with the raw node. -/
structure Expr (Name : Type) where
  free_vars : Nat
  free_types : Nat
  data : ExprData Name
deriving DecidableEq, Repr

/-- Exposed one-level view: `ExprContent<Name>` of `expr.rs`; every embedded
child is a fully formed handle. -/
inductive ExprContent (Name : Type) where
  | unit (free_vars : Nat) (free_types : Nat)
  | var (usage : VarUsage) (free_vars : Nat) (free_types : Nat) (index : Nat)
  | abs (type_params : List (TypeParam Name)) (arg_name : Name)
      (arg_type : Ty Name) (body : Expr Name)
  | app (callee : Expr Name) (type_params : List (Ty Name)) (arg : Expr Name)
  | pair (left : Expr Name) (right : Expr Name)
  | letE (names : List Name) (val : Expr Name) (body : Expr Name)
  | letExists (type_names : List Name) (val_name : Name)
      (val : Expr Name) (body : Expr Name)
  | makeExists (params : List (Name × Ty Name)) (type_body : Ty Name)
      (body : Expr Name)
deriving DecidableEq, Repr

/-- The scope-consistency error taxonomy of the specification (§7).  The Rust
code fails these checks with `assert!` (an unrecoverable abort); the spec
allows either an abort or a tagged error result, and we model the latter,
attaching to each assertion site the kind §7 assigns to it. -/
inductive ScopeError where
  | indexOutOfRange
  | typeArityMismatch
  | binderArityMismatch
  | emptyBinderList
deriving DecidableEq, Repr

/-- `Expr::from_content` of `expr.rs`: validate a one-level exposed view and
fold it into a handle.  Each `if` mirrors one `assert!` of the source, in
source order. -/
def from_content {Name : Type} : ExprContent Name → Except ScopeError (Expr Name)
  | ExprContent.unit fv ft => Except.ok ⟨fv, ft, ExprData.unit⟩
  | ExprContent.var u fv ft i =>
      if i < fv then
        Except.ok ⟨fv, ft, ExprData.var u i⟩
      else
        Except.error ScopeError.indexOutOfRange
  | ExprContent.abs tps an aty body =>
      if aty.free = body.free_types then
        if tps.length ≤ body.free_types then
          if 1 ≤ body.free_vars then
            Except.ok ⟨body.free_vars - 1, body.free_types - tps.length,
              ExprData.abs tps an aty body.data⟩
          else
            Except.error ScopeError.binderArityMismatch
        else
          Except.error ScopeError.typeArityMismatch
      else
        Except.error ScopeError.typeArityMismatch
  | ExprContent.app c tps a =>
      Except.ok ⟨a.free_vars, a.free_types, ExprData.app c.data tps a.data⟩
  | ExprContent.pair l r =>
      if l.free_vars = r.free_vars then
        if l.free_types = r.free_types then
          Except.ok ⟨l.free_vars, l.free_types, ExprData.pair l.data r.data⟩
        else
          Except.error ScopeError.typeArityMismatch
      else
        Except.error ScopeError.binderArityMismatch
  | ExprContent.letE ns v b =>
      if 0 < ns.length then
        if v.free_types = b.free_types then
          if v.free_vars + ns.length = b.free_vars then
            Except.ok ⟨v.free_vars, v.free_types,
              ExprData.letE ns v.data b.data⟩
          else
            Except.error ScopeError.binderArityMismatch
        else
          Except.error ScopeError.typeArityMismatch
      else
        Except.error ScopeError.emptyBinderList
  | ExprContent.letExists tns vn v b =>
      if 0 < tns.length then
        if v.free_types + tns.length = b.free_types then
          if v.free_vars + 1 = b.free_vars then
            Except.ok ⟨v.free_vars, v.free_types,
              ExprData.letExists tns vn v.data b.data⟩
          else
            Except.error ScopeError.binderArityMismatch
        else
          Except.error ScopeError.typeArityMismatch
      else
        Except.error ScopeError.emptyBinderList
  | ExprContent.makeExists ps tb b =>
      if 0 < ps.length then
        if b.free_types + ps.length = tb.free then
          if ps.all fun p => p.2.free == b.free_types then
            Except.ok ⟨b.free_vars, b.free_types,
              ExprData.makeExists ps tb b.data⟩
          else
            Except.error ScopeError.typeArityMismatch
        else
          Except.error ScopeError.typeArityMismatch
      else
        Except.error ScopeError.emptyBinderList

/-- `Expr::to_content` of `expr.rs`: unfold a handle one level, re-deriving
each child's counts from the handle's cached counts.  Total by construction. -/
def to_content {Name : Type} (e : Expr Name) : ExprContent Name :=
  match e.data with
  | ExprData.unit => ExprContent.unit e.free_vars e.free_types
  | ExprData.var u i => ExprContent.var u e.free_vars e.free_types i
  | ExprData.abs tps an aty b =>
      ExprContent.abs tps an aty
        ⟨e.free_vars + 1, e.free_types + tps.length, b⟩
  | ExprData.app c tps a =>
      ExprContent.app ⟨e.free_vars, e.free_types, c⟩ tps
        ⟨e.free_vars, e.free_types, a⟩
  | ExprData.pair l r =>
      ExprContent.pair ⟨e.free_vars, e.free_types, l⟩
        ⟨e.free_vars, e.free_types, r⟩
  | ExprData.letE ns v b =>
      ExprContent.letE ns ⟨e.free_vars, e.free_types, v⟩
        ⟨e.free_vars + ns.length, e.free_types, b⟩
  | ExprData.letExists tns vn v b =>
      ExprContent.letExists tns vn ⟨e.free_vars, e.free_types, v⟩
        ⟨e.free_vars + 1, e.free_types + tns.length, b⟩
  | ExprData.makeExists ps tb b =>
      ExprContent.makeExists ps tb ⟨e.free_vars, e.free_types, b⟩

/-- The child handles embedded in an exposed view, in source order. -/
def content_children {Name : Type} : ExprContent Name → List (Expr Name)
  | ExprContent.unit _ _ => []
  | ExprContent.var _ _ _ _ => []
  | ExprContent.abs _ _ _ b => [b]
  | ExprContent.app c _ a => [c, a]
  | ExprContent.pair l r => [l, r]
  | ExprContent.letE _ v b => [v, b]
  | ExprContent.letExists _ _ v b => [v, b]
  | ExprContent.makeExists _ _ b => [b]

/-- A handle that the module can actually hand out: `Expr`'s fields are
private in the Rust source, so every handle is the successful result of
`from_content` applied to a view whose embedded child handles were themselves
obtained this way. -/
inductive Built {Name : Type} : Expr Name → Prop where
  | step (v : ExprContent Name) (h : Expr Name)
      (hc : ∀ c ∈ content_children v, Built c)
      (hok : from_content v = Except.ok h) : Built h

/-- Claim C2's reading of invariant I1: every `Var{index}` reachable in the
raw tree satisfies `index < fv`, where `fv` starts at the handle's own
`free_vars` and grows by 1 under `Abs` and `LetExists`, by `names.length`
under `Let`, and is unchanged under `App`, `Pair` and `MakeExists`. -/
def scope_ok {Name : Type} : ExprData Name → Nat → Prop
  | ExprData.unit, _ => True
  | ExprData.var _ i, fv => i < fv
  | ExprData.abs _ _ _ b, fv => scope_ok b (fv + 1)
  | ExprData.app c _ a, fv => scope_ok c fv ∧ scope_ok a fv
  | ExprData.pair l r, fv => scope_ok l fv ∧ scope_ok r fv
  | ExprData.letE ns v b, fv => scope_ok v fv ∧ scope_ok b (fv + ns.length)
  | ExprData.letExists _ _ v b, fv => scope_ok v fv ∧ scope_ok b (fv + 1)
  | ExprData.makeExists _ _ b, fv => scope_ok b fv

/-- Scope soundness restricted to occurrences reachable without descending
into the callee child of an `App` node (the one child whose counts
`from_content` never checks against the handle's). -/
def scope_ok_nc {Name : Type} : ExprData Name → Nat → Prop
  | ExprData.unit, _ => True
  | ExprData.var _ i, fv => i < fv
  | ExprData.abs _ _ _ b, fv => scope_ok_nc b (fv + 1)
  | ExprData.app _ _ a, fv => scope_ok_nc a fv
  | ExprData.pair l r, fv => scope_ok_nc l fv ∧ scope_ok_nc r fv
  | ExprData.letE ns v b, fv => scope_ok_nc v fv ∧ scope_ok_nc b (fv + ns.length)
  | ExprData.letExists _ _ v b, fv => scope_ok_nc v fv ∧ scope_ok_nc b (fv + 1)
  | ExprData.makeExists _ _ b, fv => scope_ok_nc b fv

/-- The child handles of an exposed view other than an application's callee. -/
def content_children_nc {Name : Type} : ExprContent Name → List (Expr Name)
  | ExprContent.app _ _ a => [a]
  | v => content_children v

/-- Count agreement between the two children of an application view; trivially
holds for every other shape.  `from_content` does not enforce it (§9 of the
spec), which is exactly what breaks the unrestricted round-trip law. -/
def app_counts_agree {Name : Type} : ExprContent Name → Prop
  | ExprContent.app c _ a => c.free_vars = a.free_vars ∧ c.free_types = a.free_types
  | _ => True

/-- C8: application enforces no precondition relating `callee` and `arg`:
for every application view, even with mismatched counts, `from_content`
succeeds and the handle takes `arg`'s `free_vars`/`free_types`. -/
theorem app_construction_unchecked {Name : Type} (c : Expr Name)
    (tps : List (Ty Name)) (a : Expr Name) :
    from_content (ExprContent.app c tps a) =
      Except.ok ⟨a.free_vars, a.free_types, ExprData.app c.data tps a.data⟩ := rfl

/-- C3: `Abs` construction succeeds exactly under its three preconditions,
yielding `free_vars = body.free_vars - 1` and
`free_types = body.free_types - type_params.length`; any violated
precondition makes construction fail. -/
theorem abs_construction {Name : Type} (tps : List (TypeParam Name)) (an : Name)
    (aty : Ty Name) (body : Expr Name) :
    (aty.free = body.free_types ∧ tps.length ≤ body.free_types ∧
        1 ≤ body.free_vars →
      from_content (ExprContent.abs tps an aty body) =
        Except.ok ⟨body.free_vars - 1, body.free_types - tps.length,
          ExprData.abs tps an aty body.data⟩) ∧
    (¬ (aty.free = body.free_types ∧ tps.length ≤ body.free_types ∧
        1 ≤ body.free_vars) →
      (from_content (ExprContent.abs tps an aty body)).isOk = false) := by
  constructor
  · rintro ⟨h1, h2, h3⟩
    simp [from_content, h1, h2, h3]
  · intro hn
    simp only [from_content]
    split_ifs with h1 h2 h3
    · exact absurd ⟨h1, h2, h3⟩ hn
    · rfl
    · rfl
    · rfl

/-- Witness for C3: the spec's own `Abs` scenario (§8): body with
`free_vars = 2`, `free_types = 0`, no type params, `arg_type.free() = 0`
succeeds yielding `free_vars = 1`, `free_types = 0`. -/
theorem abs_construction_witness :
    from_content (ExprContent.abs ([] : List (TypeParam Nat)) 0 ⟨0, []⟩
        ⟨2, 0, ExprData.unit⟩) =
      Except.ok ⟨1, 0, ExprData.abs [] 0 ⟨0, []⟩ ExprData.unit⟩ :=
  (abs_construction [] 0 ⟨0, []⟩ ⟨2, 0, ExprData.unit⟩).1 (by decide)

/-- C4: `Let` construction succeeds exactly under its three preconditions,
yielding `val`'s counts; the spec's concrete scenario (two names,
`val.free_vars = 2`) succeeds with `body.free_vars = 4` and fails with
`body.free_vars = 3`. -/
theorem let_construction {Name : Type} (ns : List Name) (v b : Expr Name) :
    (0 < ns.length ∧ v.free_types = b.free_types ∧
        v.free_vars + ns.length = b.free_vars →
      from_content (ExprContent.letE ns v b) =
        Except.ok ⟨v.free_vars, v.free_types,
          ExprData.letE ns v.data b.data⟩) ∧
    (¬ (0 < ns.length ∧ v.free_types = b.free_types ∧
        v.free_vars + ns.length = b.free_vars) →
      (from_content (ExprContent.letE ns v b)).isOk = false) ∧
    (from_content (ExprContent.letE ["x", "y"] ⟨2, 0, ExprData.unit⟩
        ⟨4, 0, ExprData.unit⟩) =
      Except.ok ⟨2, 0, ExprData.letE ["x", "y"] ExprData.unit ExprData.unit⟩) ∧
    ((from_content (ExprContent.letE ["x", "y"] ⟨2, 0, ExprData.unit⟩
        ⟨3, 0, ExprData.unit⟩)).isOk = false) := by
  refine ⟨?_, ?_, by rfl, by rfl⟩
  · rintro ⟨h1, h2, h3⟩
    simp [from_content, h1, h2, h3]
  · intro hn
    simp only [from_content]
    split_ifs with h1 h2 h3
    · exact absurd ⟨h1, h2, h3⟩ hn
    · rfl
    · rfl
    · rfl

/-- Witness for C4: the spec's `Let` scenario, obtained from the general law:
`names = ["x", "y"]`, `val.free_vars = 2`, `body.free_vars = 4` succeeds
yielding `free_vars = 2`. -/
theorem let_construction_witness :
    from_content (ExprContent.letE ["x", "y"] ⟨2, 0, ExprData.unit⟩
        ⟨4, 0, ExprData.unit⟩) =
      Except.ok ⟨2, 0, ExprData.letE ["x", "y"] ExprData.unit ExprData.unit⟩ :=
  (let_construction ["x", "y"] ⟨2, 0, ExprData.unit⟩ ⟨4, 0, ExprData.unit⟩).1
    (by decide)

/-- C5: `MakeExists` construction succeeds exactly under its three
preconditions, yielding `body`'s counts; any violated precondition makes
construction fail. -/
theorem make_exists_construction {Name : Type} (ps : List (Name × Ty Name))
    (tb : Ty Name) (b : Expr Name) :
    (0 < ps.length ∧ b.free_types + ps.length = tb.free ∧
        (∀ p ∈ ps, (p.2).free = b.free_types) →
      from_content (ExprContent.makeExists ps tb b) =
        Except.ok ⟨b.free_vars, b.free_types,
          ExprData.makeExists ps tb b.data⟩) ∧
    (¬ (0 < ps.length ∧ b.free_types + ps.length = tb.free ∧
        (∀ p ∈ ps, (p.2).free = b.free_types)) →
      (from_content (ExprContent.makeExists ps tb b)).isOk = false) := by
  constructor
  · rintro ⟨h1, h2, h3⟩
    have hall : (ps.all fun p => p.2.free == b.free_types) = true := by
      rw [List.all_eq_true]
      intro p hp
      simpa using h3 p hp
    simp [from_content, h1, h2, hall]
  · intro hn
    simp only [from_content]
    split_ifs with h1 h2 h3
    · refine absurd ⟨h1, h2, ?_⟩ hn
      intro p hp
      simpa using List.all_eq_true.mp h3 p hp
    · rfl
    · rfl
    · rfl

/-- Witness for C5: the spec's `MakeExists` scenario (§8): one parameter
whose type has no free type variables, `body.free_types = 0`,
`type_body.free() = 1` succeeds with `body`'s counts. -/
theorem make_exists_construction_witness :
    from_content (ExprContent.makeExists [((0 : Nat), ⟨0, []⟩)] ⟨1, []⟩
        ⟨0, 0, ExprData.unit⟩) =
      Except.ok ⟨0, 0, ExprData.makeExists [(0, ⟨0, []⟩)] ⟨1, []⟩ ExprData.unit⟩ :=
  (make_exists_construction [((0 : Nat), ⟨0, []⟩)] ⟨1, []⟩
    ⟨0, 0, ExprData.unit⟩).1 (by decide)

/-- C6: `to_content` is total (it is a plain function out of `Expr`, with no
failure path) and re-derives each child's counts: `Abs` body gets
`free_types + type_params.length` and `free_vars + 1`; `App`/`Pair` children
get the parent's counts; `Let` body gets `free_vars + names.length`;
`LetExists` body gets `free_types + type_names.length` and `free_vars + 1`;
`MakeExists` body gets unchanged counts. -/
theorem to_content_child_counts {Name : Type} (h : Expr Name) :
    (∀ tps an aty b, h.data = ExprData.abs tps an aty b →
      to_content h = ExprContent.abs tps an aty
        ⟨h.free_vars + 1, h.free_types + tps.length, b⟩) ∧
    (∀ c tps a, h.data = ExprData.app c tps a →
      to_content h = ExprContent.app ⟨h.free_vars, h.free_types, c⟩ tps
        ⟨h.free_vars, h.free_types, a⟩) ∧
    (∀ l r, h.data = ExprData.pair l r →
      to_content h = ExprContent.pair ⟨h.free_vars, h.free_types, l⟩
        ⟨h.free_vars, h.free_types, r⟩) ∧
    (∀ ns v b, h.data = ExprData.letE ns v b →
      to_content h = ExprContent.letE ns ⟨h.free_vars, h.free_types, v⟩
        ⟨h.free_vars + ns.length, h.free_types, b⟩) ∧
    (∀ tns vn v b, h.data = ExprData.letExists tns vn v b →
      to_content h = ExprContent.letExists tns vn
        ⟨h.free_vars, h.free_types, v⟩
        ⟨h.free_vars + 1, h.free_types + tns.length, b⟩) ∧
    (∀ ps tb b, h.data = ExprData.makeExists ps tb b →
      to_content h = ExprContent.makeExists ps tb
        ⟨h.free_vars, h.free_types, b⟩) := by
  obtain ⟨fv, ft, d⟩ := h
  refine ⟨?_, ?_, ?_, ?_, ?_, ?_⟩ <;> intros <;> subst_eqs <;> rfl

/-- Witness for C6: unfolding a concrete `Abs` handle shifts the body's
counts up by the binder arities. -/
theorem to_content_child_counts_witness :
    to_content (⟨0, 0, ExprData.abs [] (0 : Nat) ⟨0, []⟩ ExprData.unit⟩ :
        Expr Nat) =
      ExprContent.abs [] 0 ⟨0, []⟩ ⟨1, 0, ExprData.unit⟩ :=
  (to_content_child_counts ⟨0, 0, ExprData.abs [] 0 ⟨0, []⟩ ExprData.unit⟩).1
    [] 0 ⟨0, []⟩ ExprData.unit rfl

/-- C7: the spec's rejection scenarios, with the identified error kinds:
`Var{free_vars: 3, index: 3}` fails with `IndexOutOfRange`; `Let` with no
names fails with `EmptyBinderList`; `Abs` with `arg_type.free() ≠
body.free_types` fails with `TypeArityMismatch`.  In each case the result is
an error, so no handle is produced. -/
theorem rejection_kinds {Name : Type} (u : VarUsage) (ft : Nat)
    (v b : Expr Name) (tps : List (TypeParam Name)) (an : Name) (aty : Ty Name)
    (body : Expr Name) (hty : aty.free ≠ body.free_types) :
    from_content (ExprContent.var u 3 ft 3 : ExprContent Name) =
        Except.error ScopeError.indexOutOfRange ∧
    from_content (ExprContent.letE [] v b) =
        Except.error ScopeError.emptyBinderList ∧
    from_content (ExprContent.abs tps an aty body) =
        Except.error ScopeError.typeArityMismatch := by
  refine ⟨by simp [from_content], by simp [from_content], ?_⟩
  simp [from_content, hty]

/-- Witness for C7 at concrete inputs: `arg_type.free() = 1` against
`body.free_types = 0`. -/
theorem rejection_kinds_witness :
    from_content (ExprContent.var VarUsage.move 3 0 3 : ExprContent Nat) =
        Except.error ScopeError.indexOutOfRange ∧
    from_content (ExprContent.letE ([] : List Nat) ⟨0, 0, ExprData.unit⟩
        ⟨0, 0, ExprData.unit⟩) = Except.error ScopeError.emptyBinderList ∧
    from_content (ExprContent.abs ([] : List (TypeParam Nat)) 0 ⟨1, []⟩
        ⟨1, 0, ExprData.unit⟩) = Except.error ScopeError.typeArityMismatch :=
  rejection_kinds VarUsage.move 0 ⟨0, 0, ExprData.unit⟩ ⟨0, 0, ExprData.unit⟩
    [] 0 ⟨1, []⟩ ⟨1, 0, ExprData.unit⟩ (by decide)

/-- C9: `to_content` on any successfully built application handle returns
both children carrying the handle's own counts, which are `arg`'s counts;
a callee originally built with different counts is re-exposed with `arg`'s
counts, not its own. -/
theorem to_content_app_counts {Name : Type} (c : Expr Name)
    (tps : List (Ty Name)) (a h : Expr Name)
    (hok : from_content (ExprContent.app c tps a) = Except.ok h) :
    to_content h =
      ExprContent.app ⟨a.free_vars, a.free_types, c.data⟩ tps
        ⟨a.free_vars, a.free_types, a.data⟩ ∧
    h.free_vars = a.free_vars ∧ h.free_types = a.free_types := by
  simp only [from_content, Except.ok.injEq] at hok
  subst hok
  exact ⟨rfl, rfl, rfl⟩

/-- Witness for C9: a callee handle built with counts `(5, 7)` comes back out
of `to_content` carrying the arg's counts `(0, 0)`. -/
theorem to_content_app_counts_witness :
    to_content (⟨0, 0, ExprData.app ExprData.unit [] ExprData.unit⟩ :
        Expr Nat) =
      ExprContent.app ⟨0, 0, ExprData.unit⟩ [] ⟨0, 0, ExprData.unit⟩ ∧
    (0 : Nat) = 0 ∧ (0 : Nat) = 0 :=
  @to_content_app_counts Nat ⟨5, 7, ExprData.unit⟩ [] ⟨0, 0, ExprData.unit⟩
    ⟨0, 0, ExprData.app ExprData.unit [] ExprData.unit⟩ rfl

/-- C10: structural equality on handles is field-by-field and compares the
`Name` payloads: two `Abs` handles differing only in `arg_name`, or two `Let`
handles differing only in `names`, are equal exactly when those names are
equal; and equality of two `Abs` handles holds exactly when counts and every
field, `Name` payloads included, agree. -/
theorem handle_equality_compares_names {Name : Type} (fv ft : Nat)
    (tps : List (TypeParam Name)) (n1 n2 : Name) (aty : Ty Name)
    (b : ExprData Name) (ns1 ns2 : List Name) (vd bd : ExprData Name) :
    ((⟨fv, ft, ExprData.abs tps n1 aty b⟩ : Expr Name) =
        ⟨fv, ft, ExprData.abs tps n2 aty b⟩ ↔ n1 = n2) ∧
    ((⟨fv, ft, ExprData.letE ns1 vd bd⟩ : Expr Name) =
        ⟨fv, ft, ExprData.letE ns2 vd bd⟩ ↔ ns1 = ns2) ∧
    (∀ (fv2 ft2 : Nat) (tps2 : List (TypeParam Name)) (aty2 : Ty Name)
        (b2 : ExprData Name),
      ((⟨fv, ft, ExprData.abs tps n1 aty b⟩ : Expr Name) =
          ⟨fv2, ft2, ExprData.abs tps2 n2 aty2 b2⟩ ↔
        fv = fv2 ∧ ft = ft2 ∧ tps = tps2 ∧ n1 = n2 ∧ aty = aty2 ∧ b = b2)) := by
  refine ⟨by simp, by simp, ?_⟩
  intro fv2 ft2 tps2 aty2 b2
  simp only [Expr.mk.injEq, ExprData.abs.injEq]

/-- C1 (amended): folding an exposed view and unfolding the result.  The
handle-first direction `from_content (to_content h) = ok h` holds for every
handle that `from_content` returns.  The view-first direction
`to_content (from_content v) = v` needs the extra condition that an
application view's callee and arg agree on their counts — `from_content`
never records the callee's counts, and `to_content` re-derives them from the
arg's. -/
theorem round_trip {Name : Type} (v : ExprContent Name) (h : Expr Name)
    (hb : from_content v = Except.ok h) :
    from_content (to_content h) = Except.ok h ∧
    (app_counts_agree v → to_content h = v) := by
  cases v with
  | unit fv ft =>
    simp only [from_content, Except.ok.injEq] at hb
    subst hb
    exact ⟨rfl, fun _ => rfl⟩
  | var u fv ft i =>
    simp only [from_content] at hb
    split_ifs at hb with hlt
    · simp only [Except.ok.injEq] at hb
      subst hb
      exact ⟨by simp [to_content, from_content, hlt], fun _ => rfl⟩
  | abs tps an aty body =>
    obtain ⟨bfv, bft, bd⟩ := body
    simp only [from_content] at hb
    split_ifs at hb with h1 h2 h3
    · simp only [Except.ok.injEq] at hb
      subst hb
      have e1 : bfv - 1 + 1 = bfv := Nat.sub_add_cancel h3
      have e2 : bft - tps.length + tps.length = bft := Nat.sub_add_cancel h2
      constructor
      · simp only [to_content, e1, e2]
        simp [from_content, h1, h2, h3]
      · intro _
        simp [to_content, e1, e2]
  | app c tps a =>
    obtain ⟨cfv, cft, cd⟩ := c
    obtain ⟨afv, aft, ad⟩ := a
    simp only [from_content, Except.ok.injEq] at hb
    subst hb
    refine ⟨rfl, ?_⟩
    rintro ⟨hfv, hft⟩
    simp only at hfv hft
    subst hfv hft
    rfl
  | pair l r =>
    obtain ⟨lfv, lft, ld⟩ := l
    obtain ⟨rfv, rft, rd⟩ := r
    simp only [from_content] at hb
    split_ifs at hb with h1 h2
    · simp only at h1 h2
      subst h1 h2
      simp only [Except.ok.injEq] at hb
      subst hb
      exact ⟨by simp [to_content, from_content], fun _ => rfl⟩
  | letE ns vv b =>
    obtain ⟨vfv, vft, vd⟩ := vv
    obtain ⟨bfv, bft, bd⟩ := b
    simp only [from_content] at hb
    split_ifs at hb with h1 h2 h3
    · simp only at h2 h3
      subst h2 h3
      simp only [Except.ok.injEq] at hb
      subst hb
      exact ⟨by simp [to_content, from_content, h1], fun _ => rfl⟩
  | letExists tns vn vv b =>
    obtain ⟨vfv, vft, vd⟩ := vv
    obtain ⟨bfv, bft, bd⟩ := b
    simp only [from_content] at hb
    split_ifs at hb with h1 h2 h3
    · simp only at h2 h3
      subst h2 h3
      simp only [Except.ok.injEq] at hb
      subst hb
      exact ⟨by simp [to_content, from_content, h1], fun _ => rfl⟩
  | makeExists ps tb b =>
    obtain ⟨bfv, bft, bd⟩ := b
    simp only [from_content] at hb
    split_ifs at hb with h1 h2 h3
    · simp only [Except.ok.injEq] at hb
      subst hb
      refine ⟨?_, fun _ => rfl⟩
      simp only at h2 h3
      simp [to_content, from_content, h1, h2, h3]

/-- Witness for C1: the round trip at the spec's `Abs` scenario, in both
directions. -/
theorem round_trip_witness :
    from_content (to_content (⟨1, 0, ExprData.abs [] (0 : Nat) ⟨0, []⟩
        ExprData.unit⟩ : Expr Nat)) =
      Except.ok ⟨1, 0, ExprData.abs [] 0 ⟨0, []⟩ ExprData.unit⟩ ∧
    to_content (⟨1, 0, ExprData.abs [] (0 : Nat) ⟨0, []⟩ ExprData.unit⟩ :
        Expr Nat) =
      ExprContent.abs [] 0 ⟨0, []⟩ ⟨2, 0, ExprData.unit⟩ :=
  ⟨(round_trip (ExprContent.abs [] 0 ⟨0, []⟩ ⟨2, 0, ExprData.unit⟩)
      ⟨1, 0, ExprData.abs [] 0 ⟨0, []⟩ ExprData.unit⟩ rfl).1,
    (round_trip (ExprContent.abs [] 0 ⟨0, []⟩ ⟨2, 0, ExprData.unit⟩)
      ⟨1, 0, ExprData.abs [] 0 ⟨0, []⟩ ExprData.unit⟩ rfl).2 trivial⟩

/-- Counterexample to C1 as stated: the application view whose callee is the
handle `⟨5, 0, Unit⟩` and whose arg is `⟨0, 0, Unit⟩` is valid (both children
are `from_content` results and the `App` shape enforces no precondition), yet
`to_content (from_content v)` re-exposes the callee with the arg's counts
`(0, 0)`, so it is not structurally equal to `v`. -/
theorem round_trip_counterexample :
    from_content (ExprContent.app (⟨5, 0, ExprData.unit⟩ : Expr Nat) []
        ⟨0, 0, ExprData.unit⟩) =
      Except.ok ⟨0, 0, ExprData.app ExprData.unit [] ExprData.unit⟩ ∧
    Built (⟨5, 0, ExprData.unit⟩ : Expr Nat) ∧
    Built (⟨0, 0, ExprData.unit⟩ : Expr Nat) ∧
    to_content (⟨0, 0, ExprData.app ExprData.unit [] ExprData.unit⟩ :
        Expr Nat) ≠
      ExprContent.app (⟨5, 0, ExprData.unit⟩ : Expr Nat) []
        ⟨0, 0, ExprData.unit⟩ := by
  refine ⟨rfl, ?_, ?_, by decide⟩
  · exact Built.step (ExprContent.unit 5 0) _
      (fun c hc => absurd hc (List.not_mem_nil c)) rfl
  · exact Built.step (ExprContent.unit 0 0) _
      (fun c hc => absurd hc (List.not_mem_nil c)) rfl

lemma built_scope_ok_nc {Name : Type} {h : Expr Name} (hb : Built h) :
    scope_ok_nc h.data h.free_vars := by
  induction hb with
  | step v h hc hok ih =>
    cases v with
    | unit fv ft =>
      simp only [from_content, Except.ok.injEq] at hok
      subst hok
      trivial
    | var u fv ft i =>
      simp only [from_content] at hok
      split_ifs at hok with hlt
      · simp only [Except.ok.injEq] at hok
        subst hok
        exact hlt
    | abs tps an aty body =>
      obtain ⟨bfv, bft, bd⟩ := body
      simp only [from_content] at hok
      split_ifs at hok with h1 h2 h3
      · simp only [Except.ok.injEq] at hok
        subst hok
        have hbody := ih ⟨bfv, bft, bd⟩ (by simp [content_children])
        simp only [scope_ok_nc]
        rwa [Nat.sub_add_cancel h3]
    | app c tps a =>
      simp only [from_content, Except.ok.injEq] at hok
      subst hok
      exact ih a (by simp [content_children])
    | pair l r =>
      simp only [from_content] at hok
      split_ifs at hok with h1 h2
      · simp only [Except.ok.injEq] at hok
        subst hok
        refine ⟨ih l (by simp [content_children]), ?_⟩
        rw [h1]
        exact ih r (by simp [content_children])
    | letE ns vv b =>
      simp only [from_content] at hok
      split_ifs at hok with h1 h2 h3
      · simp only [Except.ok.injEq] at hok
        subst hok
        refine ⟨ih vv (by simp [content_children]), ?_⟩
        rw [h3]
        exact ih b (by simp [content_children])
    | letExists tns vn vv b =>
      simp only [from_content] at hok
      split_ifs at hok with h1 h2 h3
      · simp only [Except.ok.injEq] at hok
        subst hok
        refine ⟨ih vv (by simp [content_children]), ?_⟩
        rw [h3]
        exact ih b (by simp [content_children])
    | makeExists ps tb b =>
      simp only [from_content] at hok
      split_ifs at hok with h1 h2 h3
      · simp only [Except.ok.injEq] at hok
        subst hok
        exact ih b (by simp [content_children])

/-- C2 (amended): every handle obtainable from `from_content` (applied to
views whose children are themselves so obtained) satisfies scope soundness for
every `Var{index}` reachable without descending into the callee child of an
application — the in-scope count starts at the handle's `free_vars` and grows
by 1 under `Abs`/`LetExists` and by `names.length` under `Let`; the child
handles that `to_content` re-exposes (the callee of an application apart)
satisfy the same invariant at their own counts. -/
theorem scope_soundness {Name : Type} (h : Expr Name) (hb : Built h) :
    scope_ok_nc h.data h.free_vars ∧
    ∀ c ∈ content_children_nc (to_content h),
      scope_ok_nc c.data c.free_vars := by
  refine ⟨built_scope_ok_nc hb, ?_⟩
  have hmain := built_scope_ok_nc hb
  obtain ⟨fv, ft, d⟩ := h
  cases d <;>
    simp_all [to_content, content_children_nc, content_children, scope_ok_nc]

/-- Witness for C2: a handle with one free variable and a single in-range
variable occurrence. -/
theorem scope_soundness_witness :
    scope_ok_nc (ExprData.var VarUsage.move 0 : ExprData Nat) 1 ∧
    ∀ c ∈ content_children_nc
        (to_content (⟨1, 0, ExprData.var VarUsage.move 0⟩ : Expr Nat)),
      scope_ok_nc c.data c.free_vars :=
  scope_soundness ⟨1, 0, ExprData.var VarUsage.move 0⟩
    (Built.step (ExprContent.var VarUsage.move 1 0 0) _
      (fun c hc => absurd hc (List.not_mem_nil c)) rfl)

/-- Counterexample to C2 as stated: the handle below is produced by
`from_content` (its callee child `⟨5, 0, Var{index 4}⟩` and arg child
`⟨0, 0, Unit⟩` are themselves `from_content` results), yet the `Var{index: 4}`
inside it crosses no binder while the handle's `free_vars` is 0, so the
claimed bound `4 < 0` fails. -/
theorem scope_soundness_counterexample :
    Built (⟨0, 0, ExprData.app (ExprData.var VarUsage.move 4) []
        ExprData.unit⟩ : Expr Nat) ∧
    ¬ scope_ok (ExprData.app (ExprData.var VarUsage.move 4)
        ([] : List (Ty Nat)) ExprData.unit) 0 := by
  constructor
  · refine Built.step
      (ExprContent.app ⟨5, 0, ExprData.var VarUsage.move 4⟩ []
        ⟨0, 0, ExprData.unit⟩) _ ?_ rfl
    intro c hc
    simp only [content_children, List.mem_cons, List.not_mem_nil, or_false] at hc
    rcases hc with rfl | rfl
    · exact Built.step (ExprContent.var VarUsage.move 5 0 4) _
        (fun c hc => absurd hc (List.not_mem_nil c)) rfl
    · exact Built.step (ExprContent.unit 0 0) _
        (fun c hc => absurd hc (List.not_mem_nil c)) rfl
  · simp [scope_ok]

end Nickel
